import Mathlib

/-!
Shallow embedding of `compiler_opt/distributed/local/local_worker_manager.py`:
the local process-pool RPC middleware.  Python dicts are modelled as
association lists with overwrite-on-insert semantics, futures as an explicit
store mapping future ids to a resolution state, and the stateful stub /
dispatch-loop code as pure state-transition functions.
-/

namespace LocalWorkerManager

/-- values exchanged across the pipe: call arguments, return values and
captured exception payloads (a `CancelledError` is distinguished because the
stub raises it on shutdown). -/
inductive Value where
  | intV : Int → Value
  | strV : String → Value
  | exn : String → Value
  | cancelledError : Value
deriving DecidableEq

/-- the `Task` dataclass: one remote method invocation envelope. -/
structure Task where
  msgid : Nat
  func_name : String
  args : List Value
  kwargs : List (String × Value)
  is_urgent : Bool
deriving DecidableEq

/-- the `TaskResult` dataclass: the outcome envelope for one `Task`. -/
structure TaskResult where
  msgid : Nat
  success : Bool
  value : Value
deriving DecidableEq

/-- lookup in an association list modelling a Python dict (`d[k]`,
`none` standing for a `KeyError`). -/
def lookupD {α : Type} (m : List (Nat × α)) (k : Nat) : Option α :=
  match m with
  | [] => none
  | p :: rest => if p.1 = k then some p.2 else lookupD rest k

/-- Python dict assignment `d[k] = v`: overwrite the entry for `k` if present,
otherwise append a new entry. -/
def dictInsert {α : Type} (m : List (Nat × α)) (k : Nat) (v : α) :
    List (Nat × α) :=
  match m with
  | [] => [(k, v)]
  | p :: rest => if p.1 = k then (k, v) :: rest else p :: dictInsert rest k v

/-- Python dict deletion `del d[k]`. -/
def dictErase {α : Type} (m : List (Nat × α)) (k : Nat) : List (Nat × α) :=
  match m with
  | [] => []
  | p :: rest => if p.1 = k then rest else p :: dictErase rest k

/-- the keys of an association list. -/
def keysD {α : Type} : List (Nat × α) → List Nat
  | [] => []
  | p :: rest => p.1 :: keysD rest

/-- the resolution state of one `concurrent.futures.Future`. -/
inductive FutState where
  | pending
  | resolved : Value → FutState
  | failed : Value → FutState
deriving DecidableEq

/-- the mutable state of one `_Stub`: `map` is the `msgid -> future` pending
table (`none` once the stub is stopped, mirroring `self._map = None`),
`futures` the store of futures this stub has created, `msgid` the allocation
counter and `nextFut` the id of the next future to be created. -/
structure StubState where
  map : Option (List (Nat × Nat))
  futures : List (Nat × FutState)
  msgid : Nat
  nextFut : Nat
deriving DecidableEq

/-- the stub state right after `_Stub.__init__`: empty pending table,
counter at zero. -/
def initStub : StubState :=
  { map := some [], futures := [], msgid := 0, nextFut := 0 }

/-- `_Stub._is_stopped`: the pending table doubles as the liveness flag. -/
def isStopped (s : StubState) : Bool := s.map.isNone

/-- what `_Stub.__getattr__` captures in the `remote_call` closure: the
freshly created result future and the allocated msgid. -/
structure CallHandle where
  msgid : Nat
  futId : Nat
deriving DecidableEq

/-- `_Stub.__getattr__` body (before the returned closure is ever invoked):
create `result_future`, then under `_msgidlock` read and bump `_msgid`. -/
def stubGetattr (s : StubState) : CallHandle × StubState :=
  (⟨s.msgid, s.nextFut⟩,
   { s with
      futures := dictInsert s.futures s.nextFut FutState.pending,
      nextFut := s.nextFut + 1,
      msgid := s.msgid + 1 })

/-- what one invocation of `remote_call` put on the pipe, if anything. -/
inductive SendEvent where
  | nothingSent
  | sent : Task → SendEvent
deriving DecidableEq

/-- the `remote_call` closure returned by `_Stub.__getattr__`: under
`self._lock`, either fail the captured future with `CancelledError` (stub
stopped: nothing is sent), or send a `Task` (with `is_urgent` from
`cls.is_priority_method(name)`) and register the future under the captured
msgid; either way `result_future` (its id) is returned. -/
def remoteCall (is_priority : String → Bool) (name : String) (hdl : CallHandle)
    (args : List Value) (kwargs : List (String × Value)) (s : StubState) :
    SendEvent × Nat × StubState :=
  match s.map with
  | none =>
      (SendEvent.nothingSent, hdl.futId,
       { s with
          futures :=
            dictInsert s.futures hdl.futId
              (FutState.failed Value.cancelledError) })
  | some m =>
      (SendEvent.sent
        ⟨hdl.msgid, name, args, kwargs, is_priority name⟩, hdl.futId,
       { s with map := some (dictInsert m hdl.msgid hdl.futId) })

/-- one non-sentinel iteration of `_Stub._msg_pump`: under `self._lock`,
look up the pending future for the result's msgid (`none` models the
`KeyError`/`TypeError` crash of the pump thread when the lookup fails or the
table is gone), delete the entry and resolve the future with
`set_result`/`set_exception` according to `success`. -/
def pumpHandleResult (s : StubState) (r : TaskResult) : Option StubState :=
  match s.map with
  | none => none
  | some m =>
      match lookupD m r.msgid with
      | none => none
      | some fid =>
          some { s with
            map := some (dictErase m r.msgid),
            futures :=
              dictInsert s.futures fid
                (if r.success then FutState.resolved r.value
                 else FutState.failed r.value) }

/-- the `for _, v in self._map.items(): v.set_exception(CancelledError())`
sweep of `_msg_pump`: fail every future still registered in the table. -/
def cancelAll (futures : List (Nat × FutState)) (m : List (Nat × Nat)) :
    List (Nat × FutState) :=
  m.foldl
    (fun fs p => dictInsert fs p.2 (FutState.failed Value.cancelledError))
    futures

/-- the poison-pill branch of `_Stub._msg_pump`: under `self._lock`, fail
every pending future with `CancelledError`, then null the table
(`self._map = None`). -/
def pumpHandleSentinel (s : StubState) : StubState :=
  match s.map with
  | none => { s with map := none }
  | some m => { s with futures := cancelAll s.futures m, map := none }

/-- a hosted method: positional and keyword arguments to either a returned
value or a raised exception payload. -/
def MethodImpl : Type :=
  List Value → List (String × Value) → Except Value Value

/-- the hosted object as the dispatch loop sees it: `getattr(obj, name)`,
`none` modelling the `AttributeError` for a missing attribute. -/
def ObjModel : Type := String → Option MethodImpl

/-- what one iteration of the `_run_impl` loop did with a received task. -/
inductive DispatchOutcome where
  | sentResult : TaskResult → DispatchOutcome
  | queued : DispatchOutcome
  | crashed : DispatchOutcome
deriving DecidableEq

/-- one iteration of the `while True` loop of `_run_impl`, `q` being the
msgids submitted to the bounded thread pool: resolve the method
(`getattr` raising `AttributeError`, modelled `crashed`, when absent); if
urgent, run it inline and send the success/failure `TaskResult` now;
otherwise submit it to the pool. -/
def dispatchStep (obj : ObjModel) (q : List Nat) (t : Task) :
    DispatchOutcome × List Nat :=
  match obj t.func_name with
  | none => (DispatchOutcome.crashed, q)
  | some f =>
      if t.is_urgent then
        match f t.args t.kwargs with
        | Except.ok v => (DispatchOutcome.sentResult ⟨t.msgid, true, v⟩, q)
        | Except.error e => (DispatchOutcome.sentResult ⟨t.msgid, false, e⟩, q)
      else (DispatchOutcome.queued, q ++ [t.msgid])

/-- `make_ondone(msgid)`: the done-callback sending the `TaskResult` for a
pooled (non-urgent) call once it completes. -/
def make_ondone (msgid : Nat) (outcome : Except Value Value) : TaskResult :=
  match outcome with
  | Except.error e => ⟨msgid, false, e⟩
  | Except.ok v => ⟨msgid, true, v⟩

/-- `_Stub.shutdown`: `self._process.kill()` wrapped in a bare
`try ... except: pass`; the argument is the outcome of the kill primitive. -/
def stubShutdown (killResult : Except String Unit) : Except String Unit :=
  match killResult with
  | Except.ok _ => Except.ok ()
  | Except.error _ => Except.ok ()

/-- the shutdown loop of `LocalWorkerPool.__exit__` run over the kill
outcomes of the stubs, counting the shutdowns performed; an escaping
exception would abort the remaining iterations as `Except.error`. -/
def runShutdownPhase (kills : List (Except String Unit)) : Except String Nat :=
  kills.foldl
    (fun acc k =>
      match acc with
      | Except.error e => Except.error e
      | Except.ok n =>
          match stubShutdown k with
          | Except.ok _ => Except.ok (n + 1)
          | Except.error e => Except.error e)
    (Except.ok 0)

/-- the stub count of `LocalWorkerPool.__init__`: `if not count` replaces
both `None` and `0` by `multiprocessing.cpu_count()`; the list comprehension
over `range(count)` yields `count` stubs for positive counts and none for
negative ones. -/
def poolStubCount (count : Option Int) (cpuCount : Nat) : Nat :=
  match count with
  | none => cpuCount
  | some c => if c = 0 then cpuCount else c.toNat

/-- the pool: its ordered, fixed collection of stubs (identified by
index). -/
structure LocalWorkerPool where
  stubs : List Nat
deriving DecidableEq

/-- `LocalWorkerPool.__init__`. -/
def localWorkerPool (count : Option Int) (cpuCount : Nat) : LocalWorkerPool :=
  ⟨List.range (poolStubCount count cpuCount)⟩

/-- `LocalWorkerPool.__enter__`: yields the stub collection itself. -/
def poolEnter (p : LocalWorkerPool) : List Nat := p.stubs

/-- one teardown action of `LocalWorkerPool.__exit__` on one stub. -/
inductive PoolEvent where
  | shutdownEv : Nat → PoolEvent
  | joinEv : Nat → PoolEvent
deriving DecidableEq

/-- `LocalWorkerPool.__exit__` as the sequence of actions it performs:
`s.shutdown()` for every stub in order, then `s.join()` for every stub in
order. -/
def poolExitTrace (p : LocalWorkerPool) : List PoolEvent :=
  p.stubs.map PoolEvent.shutdownEv ++ p.stubs.map PoolEvent.joinEv

def isJoinEv : PoolEvent → Bool
  | PoolEvent.joinEv _ => true
  | PoolEvent.shutdownEv _ => false

def isShutdownEv : PoolEvent → Bool
  | PoolEvent.joinEv _ => false
  | PoolEvent.shutdownEv _ => true

/-- one client-visible event in the life of a stub: a full remote call
(attribute access immediately followed by one invocation of the returned
closure), or the pump receiving a result or the poison pill. -/
inductive StubOp where
  | call : String → List Value → List (String × Value) → StubOp
  | recvResult : TaskResult → StubOp
  | recvSentinel : StubOp

/-- the state transition of one `StubOp` (a crashed pump iteration leaves
the state untouched). -/
def stubStep (is_priority : String → Bool) (s : StubState) (op : StubOp) :
    StubState :=
  match op with
  | StubOp.call name args kwargs =>
      (remoteCall is_priority name (stubGetattr s).1 args kwargs
        (stubGetattr s).2).2.2
  | StubOp.recvResult r => (pumpHandleResult s r).getD s
  | StubOp.recvSentinel => pumpHandleSentinel s

/-- run a sequence of stub operations. -/
def runOps (is_priority : String → Bool) (s : StubState)
    (ops : List StubOp) : StubState :=
  ops.foldl (stubStep is_priority) s

/-- the msgids issued to the successive remote calls of a trace. -/
def issuedMsgids (is_priority : String → Bool) (s : StubState) :
    List StubOp → List Nat
  | [] => []
  | StubOp.call name args kwargs :: ops =>
      s.msgid :: issuedMsgids is_priority
        (stubStep is_priority s (StubOp.call name args kwargs)) ops
  | StubOp.recvResult r :: ops =>
      issuedMsgids is_priority
        (stubStep is_priority s (StubOp.recvResult r)) ops
  | StubOp.recvSentinel :: ops =>
      issuedMsgids is_priority
        (stubStep is_priority s StubOp.recvSentinel) ops

/-- a concrete hosted method used to exercise the model: echoes its first
positional argument. -/
def exEcho : MethodImpl :=
  fun args _ => Except.ok (args.headD (Value.intV 0))

/-- a concrete hosted method that always raises. -/
def exFail : MethodImpl :=
  fun _ _ => Except.error (Value.exn "boom")

/-- a concrete hosted object with exactly the methods `echo` and `fail`. -/
def exObj : ObjModel :=
  fun name =>
    if name = "echo" then some exEcho
    else if name = "fail" then some exFail
    else none

/-! ### association-list (Python dict) lemmas -/

theorem lookupD_dictInsert_self {α : Type} (m : List (Nat × α)) (k : Nat)
    (v : α) : lookupD (dictInsert m k v) k = some v := by
  induction m with
  | nil => simp [dictInsert, lookupD]
  | cons p rest ih =>
      by_cases hp : p.1 = k
      · simp [dictInsert, hp, lookupD]
      · simp [dictInsert, hp, lookupD, ih]

theorem lookupD_dictInsert_ne {α : Type} (m : List (Nat × α)) (k k' : Nat)
    (v : α) (hne : k' ≠ k) :
    lookupD (dictInsert m k v) k' = lookupD m k' := by
  induction m with
  | nil =>
      simp only [dictInsert, lookupD]
      rw [if_neg (Ne.symm hne)]
  | cons p rest ih =>
      by_cases hp : p.1 = k
      · rw [dictInsert, if_pos hp]
        simp only [lookupD]
        rw [if_neg (Ne.symm hne), if_neg (fun h => hne (hp.symm.trans h).symm)]
      · rw [dictInsert, if_neg hp]
        simp only [lookupD]
        by_cases hq : p.1 = k'
        · rw [if_pos hq, if_pos hq]
        · rw [if_neg hq, if_neg hq, ih]

theorem lookupD_eq_none {α : Type} (m : List (Nat × α)) (k : Nat)
    (hk : k ∉ keysD m) : lookupD m k = none := by
  induction m with
  | nil => simp [lookupD]
  | cons p rest ih =>
      have h1 : ¬ p.1 = k := fun h => hk (by simp [keysD, h])
      have h2 : k ∉ keysD rest := fun h => hk (by simp [keysD, h])
      simp [lookupD, h1, ih h2]

theorem mem_keysD_dictInsert {α : Type} (m : List (Nat × α)) (k x : Nat)
    (v : α) : x ∈ keysD (dictInsert m k v) ↔ x = k ∨ x ∈ keysD m := by
  induction m with
  | nil => simp [dictInsert, keysD]
  | cons p rest ih =>
      by_cases hp : p.1 = k
      · simp only [dictInsert, if_pos hp, keysD, List.mem_cons, hp]
        tauto
      · simp only [dictInsert, if_neg hp, keysD, List.mem_cons, ih]
        tauto

theorem nodup_keysD_dictInsert {α : Type} (m : List (Nat × α)) (k : Nat)
    (v : α) (h : (keysD m).Nodup) : (keysD (dictInsert m k v)).Nodup := by
  induction m with
  | nil => simp [dictInsert, keysD]
  | cons p rest ih =>
      rw [keysD, List.nodup_cons] at h
      by_cases hp : p.1 = k
      · rw [dictInsert, if_pos hp, keysD, List.nodup_cons]
        exact ⟨hp ▸ h.1, h.2⟩
      · rw [dictInsert, if_neg hp, keysD, List.nodup_cons]
        refine ⟨?_, ih h.2⟩
        intro hmem
        rcases (mem_keysD_dictInsert rest k p.1 v).mp hmem with h1 | h1
        · exact hp h1
        · exact h.1 h1

theorem keysD_dictErase_sublist {α : Type} (m : List (Nat × α)) (k : Nat) :
    List.Sublist (keysD (dictErase m k)) (keysD m) := by
  induction m with
  | nil => simp [dictErase]
  | cons p rest ih =>
      by_cases hp : p.1 = k
      · rw [dictErase, if_pos hp, keysD]
        exact List.Sublist.cons _ (List.Sublist.refl _)
      · rw [dictErase, if_neg hp, keysD, keysD]
        exact List.Sublist.cons₂ _ ih

theorem nodup_keysD_dictErase {α : Type} (m : List (Nat × α)) (k : Nat)
    (h : (keysD m).Nodup) : (keysD (dictErase m k)).Nodup :=
  (keysD_dictErase_sublist m k).nodup h

theorem lookupD_dictErase_self {α : Type} (m : List (Nat × α)) (k : Nat)
    (h : (keysD m).Nodup) : lookupD (dictErase m k) k = none := by
  induction m with
  | nil => simp [dictErase, lookupD]
  | cons p rest ih =>
      rw [keysD, List.nodup_cons] at h
      by_cases hp : p.1 = k
      · rw [dictErase, if_pos hp]
        exact lookupD_eq_none rest k (hp ▸ h.1)
      · rw [dictErase, if_neg hp, lookupD]
        simp [hp, ih h.2]

theorem lookupD_dictErase_ne {α : Type} (m : List (Nat × α)) (k k' : Nat)
    (hne : k' ≠ k) : lookupD (dictErase m k) k' = lookupD m k' := by
  induction m with
  | nil => rfl
  | cons p rest ih =>
      by_cases hp : p.1 = k
      · rw [dictErase, if_pos hp, lookupD]
        simp [hp, Ne.symm hne]
      · by_cases hq : p.1 = k'
        · rw [dictErase, if_neg hp, lookupD, lookupD]
          simp [hq]
        · rw [dictErase, if_neg hp, lookupD, lookupD]
          simp [hq, ih]

theorem cancelAll_cons (fs : List (Nat × FutState)) (a : Nat × Nat)
    (rest : List (Nat × Nat)) :
    cancelAll fs (a :: rest) =
      cancelAll
        (dictInsert fs a.2 (FutState.failed Value.cancelledError)) rest := rfl

theorem cancelAll_lookup_untouched (fs : List (Nat × FutState))
    (m : List (Nat × Nat)) (fid : Nat) (h : ∀ p ∈ m, p.2 ≠ fid) :
    lookupD (cancelAll fs m) fid = lookupD fs fid := by
  induction m generalizing fs with
  | nil => rfl
  | cons a rest ih =>
      rw [cancelAll_cons]
      rw [ih _ (fun p hp => h p (List.mem_cons_of_mem _ hp))]
      exact lookupD_dictInsert_ne _ _ _ _
        (fun he => h a (List.mem_cons_self _ _) he.symm)

theorem cancelAll_lookup (fs : List (Nat × FutState)) (m : List (Nat × Nat))
    (fid : Nat) (h : ∃ p ∈ m, p.2 = fid) :
    lookupD (cancelAll fs m) fid =
      some (FutState.failed Value.cancelledError) := by
  induction m generalizing fs with
  | nil =>
      obtain ⟨p, hp, _⟩ := h
      simp at hp
  | cons a rest ih =>
      by_cases hr : ∃ p ∈ rest, p.2 = fid
      · rw [cancelAll_cons]
        exact ih _ hr
      · have ha : a.2 = fid := by
          obtain ⟨p, hp, hpe⟩ := h
          rcases List.mem_cons.mp hp with h1 | h2
          · exact h1 ▸ hpe
          · exact absurd ⟨p, h2, hpe⟩ hr
        rw [cancelAll_cons,
          cancelAll_lookup_untouched _ rest fid
            (fun p hp he => hr ⟨p, hp, he⟩),
          ha]
        exact lookupD_dictInsert_self _ _ _

/-! ### stub state-machine lemmas -/

theorem pumpHandleResult_some (s : StubState) (r : TaskResult) (s' : StubState)
    (h : pumpHandleResult s r = some s') :
    ∃ m fid, s.map = some m ∧ lookupD m r.msgid = some fid ∧
      s' = { s with
        map := some (dictErase m r.msgid),
        futures :=
          dictInsert s.futures fid
            (if r.success then FutState.resolved r.value
             else FutState.failed r.value) } := by
  cases hm : s.map with
  | none => simp [pumpHandleResult, hm] at h
  | some m =>
      cases hl : lookupD m r.msgid with
      | none => simp [pumpHandleResult, hm, hl] at h
      | some fid =>
          simp only [pumpHandleResult, hm, hl, Option.some.injEq] at h
          exact ⟨m, fid, rfl, hl, h.symm⟩

theorem pumpHandleSentinel_map (s : StubState) :
    (pumpHandleSentinel s).map = none := by
  cases hm : s.map <;> simp [pumpHandleSentinel, hm]

theorem stubStep_msgid_call (is_priority : String → Bool) (s : StubState)
    (name : String) (args : List Value) (kwargs : List (String × Value)) :
    (stubStep is_priority s (StubOp.call name args kwargs)).msgid =
      s.msgid + 1 := by
  cases hm : s.map <;> simp [stubStep, remoteCall, stubGetattr, hm]

theorem stubStep_msgid_le (is_priority : String → Bool) (s : StubState)
    (op : StubOp) : s.msgid ≤ (stubStep is_priority s op).msgid := by
  cases op with
  | call name args kwargs =>
      rw [stubStep_msgid_call]
      exact Nat.le_succ _
  | recvResult r =>
      cases hp : pumpHandleResult s r with
      | none => simp [stubStep, hp]
      | some u =>
          obtain ⟨m, fid, _, _, hu⟩ := pumpHandleResult_some s r u hp
          simp [stubStep, hp, hu]
  | recvSentinel =>
      cases hm : s.map <;> simp [stubStep, pumpHandleSentinel, hm]

theorem issuedMsgids_lb (is_priority : String → Bool) :
    ∀ (ops : List StubOp) (s : StubState) (x : Nat),
      x ∈ issuedMsgids is_priority s ops → s.msgid ≤ x := by
  intro ops
  induction ops with
  | nil =>
      intro s x hx
      simp [issuedMsgids] at hx
  | cons op rest ih =>
      intro s x hx
      cases op with
      | call name args kwargs =>
          rw [issuedMsgids] at hx
          rcases List.mem_cons.mp hx with h1 | h2
          · exact Nat.le_of_eq h1.symm
          · exact le_trans (stubStep_msgid_le is_priority s _) (ih _ x h2)
      | recvResult r =>
          rw [issuedMsgids] at hx
          exact le_trans (stubStep_msgid_le is_priority s _) (ih _ x hx)
      | recvSentinel =>
          rw [issuedMsgids] at hx
          exact le_trans (stubStep_msgid_le is_priority s _) (ih _ x hx)

theorem issuedMsgids_pairwise (is_priority : String → Bool) :
    ∀ (ops : List StubOp) (s : StubState),
      (issuedMsgids is_priority s ops).Pairwise (· < ·) := by
  intro ops
  induction ops with
  | nil =>
      intro s
      simp [issuedMsgids]
  | cons op rest ih =>
      intro s
      cases op with
      | call name args kwargs =>
          rw [issuedMsgids]
          refine List.Pairwise.cons ?_ (ih _)
          intro x hx
          have h1 := issuedMsgids_lb is_priority rest _ x hx
          rw [stubStep_msgid_call] at h1
          exact h1
      | recvResult r =>
          rw [issuedMsgids]
          exact ih _
      | recvSentinel =>
          rw [issuedMsgids]
          exact ih _

/-- the per-stub invariant: the pending table has no duplicate msgid and
every pending msgid was allocated below the current counter. -/
def StubInv (s : StubState) : Prop :=
  ∀ m, s.map = some m →
    (keysD m).Nodup ∧ ∀ x ∈ keysD m, x < s.msgid

theorem stubInv_init : StubInv initStub := by
  intro m hm
  simp only [initStub, Option.some.injEq] at hm
  subst hm
  simp [keysD]

theorem stubInv_step (is_priority : String → Bool) (s : StubState)
    (op : StubOp) (h : StubInv s) : StubInv (stubStep is_priority s op) := by
  cases op with
  | call name args kwargs =>
      intro m' hm'
      cases hm : s.map with
      | none => simp [stubStep, remoteCall, stubGetattr, hm] at hm'
      | some m =>
          simp only [stubStep, remoteCall, stubGetattr,
            Option.some.injEq] at hm'
          rw [hm] at hm'
          simp only [Option.some.injEq] at hm'
          obtain ⟨hnd, hb⟩ := h m hm
          rw [stubStep_msgid_call]
          subst hm'
          constructor
          · exact nodup_keysD_dictInsert _ _ _ hnd
          · intro x hx
            rcases (mem_keysD_dictInsert m s.msgid x s.nextFut).mp hx with
              h1 | h1
            · rw [h1]
              exact Nat.lt_succ_self _
            · exact Nat.lt_trans (hb x h1) (Nat.lt_succ_self _)
  | recvResult r =>
      cases hp : pumpHandleResult s r with
      | none =>
          intro m' hm'
          simp only [stubStep, hp, Option.getD_none] at hm'
          simpa [stubStep, hp] using h m' hm'
      | some u =>
          obtain ⟨m, fid, hm, hl, hu⟩ := pumpHandleResult_some s r u hp
          intro m' hm'
          simp only [stubStep, hp, Option.getD_some, hu,
            Option.some.injEq] at hm'
          obtain ⟨hnd, hb⟩ := h m hm
          subst hm'
          constructor
          · exact nodup_keysD_dictErase _ _ hnd
          · intro x hx
            have hsub :=
              (keysD_dictErase_sublist m r.msgid).subset hx
            have := hb x hsub
            simpa [stubStep, hp, hu] using this
  | recvSentinel =>
      intro m' hm'
      rw [show stubStep is_priority s StubOp.recvSentinel =
            pumpHandleSentinel s from rfl, pumpHandleSentinel_map] at hm'
      cases hm'

theorem runOps_inv (is_priority : String → Bool) :
    ∀ (ops : List StubOp) (s : StubState),
      StubInv s → StubInv (runOps is_priority s ops) := by
  intro ops
  induction ops with
  | nil => intro s h; exact h
  | cons op rest ih =>
      intro s h
      exact ih _ (stubInv_step is_priority s op h)

/-! ### pool and shutdown lemmas -/

theorem pairwise_of_total {α : Type} {R : α → α → Prop} (h : ∀ a b, R a b) :
    ∀ l : List α, l.Pairwise R
  | [] => List.Pairwise.nil
  | a :: l => List.Pairwise.cons (fun b _ => h a b) (pairwise_of_total h l)

theorem shutdowns_before_joins (l : List Nat) :
    (l.map PoolEvent.shutdownEv ++ l.map PoolEvent.joinEv).Pairwise
      (fun a b => ¬ (isJoinEv a = true ∧ isShutdownEv b = true)) := by
  rw [List.pairwise_append]
  refine ⟨?_, ?_, ?_⟩
  · rw [List.pairwise_map]
    exact pairwise_of_total (fun a b => by simp [isJoinEv]) l
  · rw [List.pairwise_map]
    exact pairwise_of_total (fun a b => by simp [isShutdownEv]) l
  · intro a ha b hb
    obtain ⟨x, hx, hxa⟩ := List.mem_map.mp ha
    obtain ⟨y, hy, hyb⟩ := List.mem_map.mp hb
    rw [← hxa, ← hyb]
    simp [isJoinEv]

theorem shutdownFold_ok (kills : List (Except String Unit)) :
    ∀ n : Nat,
      kills.foldl
        (fun acc k =>
          match acc with
          | Except.error e => Except.error e
          | Except.ok n' =>
              match stubShutdown k with
              | Except.ok _ => Except.ok (n' + 1)
              | Except.error e => Except.error e)
        (Except.ok n) = Except.ok (n + kills.length) := by
  induction kills with
  | nil =>
      intro n
      simp
  | cons k rest ih =>
      intro n
      cases k with
      | ok u =>
          exact (ih (n + 1)).trans
            (congrArg Except.ok (by simp only [List.length_cons]; omega))
      | error e =>
          exact (ih (n + 1)).trans
            (congrArg Except.ok (by simp only [List.length_cons]; omega))

/-! ### the claims -/

/-- C1: for every non-sentinel `TaskResult` received by the message pump of a
live stub, the pump (atomically, under the stub's state lock) removes the
entry for the result's msgid from the pending-call table and resolves the
removed future: `set_result` with the carried value when `success` is true,
`set_exception` with the carried error payload when `success` is false. -/
theorem pump_taskresult_resolves_future (s : StubState) (r : TaskResult)
    (m : List (Nat × Nat)) (fid : Nat) (hm : s.map = some m)
    (hnd : (keysD m).Nodup) (hfid : lookupD m r.msgid = some fid) :
    ∃ s', pumpHandleResult s r = some s' ∧
      s'.map = some (dictErase m r.msgid) ∧
      lookupD (dictErase m r.msgid) r.msgid = none ∧
      (∀ k, k ≠ r.msgid → lookupD (dictErase m r.msgid) k = lookupD m k) ∧
      lookupD s'.futures fid =
        some (if r.success then FutState.resolved r.value
              else FutState.failed r.value) ∧
      s'.msgid = s.msgid := by
  refine ⟨{ s with
      map := some (dictErase m r.msgid),
      futures :=
        dictInsert s.futures fid
          (if r.success then FutState.resolved r.value
           else FutState.failed r.value) }, ?_, rfl, ?_, ?_, ?_, rfl⟩
  · simp [pumpHandleResult, hm, hfid]
  · exact lookupD_dictErase_self m r.msgid hnd
  · intro k hk
    exact lookupD_dictErase_ne m r.msgid k hk
  · exact lookupD_dictInsert_self _ _ _

/-- concrete stub state for the C1 witness: one pending call with msgid 5
registered under future 0. -/
def exStubC1 : StubState :=
  { map := some [(5, 0)], futures := [(0, FutState.pending)],
    msgid := 6, nextFut := 1 }

/-- C1 witness: the theorem applied to `exStubC1` and a successful result
for msgid 5. -/
theorem pump_taskresult_resolves_future_inst :
    ∃ s', pumpHandleResult exStubC1 ⟨5, true, Value.intV 7⟩ = some s' ∧
      s'.map = some (dictErase [(5, 0)] 5) ∧
      lookupD (dictErase [(5, 0)] 5) 5 = none ∧
      (∀ k, k ≠ 5 → lookupD (dictErase [(5, 0)] 5) k = lookupD [(5, 0)] k) ∧
      lookupD s'.futures 0 =
        some (if true then FutState.resolved (Value.intV 7)
              else FutState.failed (Value.intV 7)) ∧
      s'.msgid = exStubC1.msgid :=
  pump_taskresult_resolves_future exStubC1 ⟨5, true, Value.intV 7⟩
    [(5, 0)] 0 rfl (by decide) rfl

/-- C2: a `remote_call` invocation returns the captured future immediately;
under the single lock guarding table and stopped state together, if the stub
is stopped the future is failed with `CancelledError` and nothing is sent
(pending table and msgid counter unchanged), otherwise a `Task` carrying the
allocated msgid, the method name, the arguments and `is_urgent` from the
hosted class priority predicate is sent and the future is registered in the
table under that msgid. -/
theorem remote_call_contract (is_priority : String → Bool) (name : String)
    (hdl : CallHandle) (args : List Value) (kwargs : List (String × Value))
    (s : StubState) :
    (remoteCall is_priority name hdl args kwargs s).2.1 = hdl.futId ∧
    (s.map = none →
      (remoteCall is_priority name hdl args kwargs s).1 =
        SendEvent.nothingSent ∧
      (remoteCall is_priority name hdl args kwargs s).2.2.map = none ∧
      (remoteCall is_priority name hdl args kwargs s).2.2.msgid = s.msgid ∧
      lookupD (remoteCall is_priority name hdl args kwargs s).2.2.futures
          hdl.futId =
        some (FutState.failed Value.cancelledError)) ∧
    (∀ m, s.map = some m →
      (remoteCall is_priority name hdl args kwargs s).1 =
        SendEvent.sent ⟨hdl.msgid, name, args, kwargs, is_priority name⟩ ∧
      (remoteCall is_priority name hdl args kwargs s).2.2.map =
        some (dictInsert m hdl.msgid hdl.futId) ∧
      lookupD (dictInsert m hdl.msgid hdl.futId) hdl.msgid =
        some hdl.futId) := by
  refine ⟨?_, ?_, ?_⟩
  · cases hm : s.map <;> simp [remoteCall, hm]
  · intro hm
    refine ⟨?_, ?_, ?_, ?_⟩ <;>
      simp [remoteCall, hm, lookupD_dictInsert_self]
  · intro m hm
    refine ⟨?_, ?_, ?_⟩ <;>
      simp [remoteCall, hm, lookupD_dictInsert_self]

/-- C3: on the poison pill, the pump fails every future still pending with
`CancelledError` and nulls the table; any remote call invoked on the stopped
stub afterwards sends nothing and has its future failed with
`CancelledError` rather than left pending. -/
theorem sentinel_cancels_pending_and_stops (s : StubState)
    (m : List (Nat × Nat)) (hm : s.map = some m) :
    (pumpHandleSentinel s).map = none ∧
    (∀ p ∈ m, lookupD (pumpHandleSentinel s).futures p.2 =
      some (FutState.failed Value.cancelledError)) ∧
    (∀ (is_priority : String → Bool) (name : String) (hdl : CallHandle)
        (args : List Value) (kwargs : List (String × Value)),
      (remoteCall is_priority name hdl args kwargs
          (pumpHandleSentinel s)).1 = SendEvent.nothingSent ∧
      lookupD (remoteCall is_priority name hdl args kwargs
          (pumpHandleSentinel s)).2.2.futures hdl.futId =
        some (FutState.failed Value.cancelledError)) := by
  have hps : pumpHandleSentinel s =
      { s with futures := cancelAll s.futures m, map := none } := by
    simp [pumpHandleSentinel, hm]
  refine ⟨pumpHandleSentinel_map s, ?_, ?_⟩
  · intro p hp
    rw [hps]
    exact cancelAll_lookup _ _ _ ⟨p, hp, rfl⟩
  · intro is_priority name hdl args kwargs
    rw [hps]
    exact ⟨rfl, lookupD_dictInsert_self _ _ _⟩

/-- concrete stub state for the C3 witness: two pending calls. -/
def exStubC3 : StubState :=
  { map := some [(1, 0), (2, 1)],
    futures := [(0, FutState.pending), (1, FutState.pending)],
    msgid := 3, nextFut := 2 }

/-- C3 witness: the theorem applied to `exStubC3`. -/
theorem sentinel_cancels_pending_and_stops_inst :
    (pumpHandleSentinel exStubC3).map = none ∧
    (∀ p ∈ [(1, 0), (2, 1)],
      lookupD (pumpHandleSentinel exStubC3).futures p.2 =
        some (FutState.failed Value.cancelledError)) ∧
    (∀ (is_priority : String → Bool) (name : String) (hdl : CallHandle)
        (args : List Value) (kwargs : List (String × Value)),
      (remoteCall is_priority name hdl args kwargs
          (pumpHandleSentinel exStubC3)).1 = SendEvent.nothingSent ∧
      lookupD (remoteCall is_priority name hdl args kwargs
          (pumpHandleSentinel exStubC3)).2.2.futures hdl.futId =
        some (FutState.failed Value.cancelledError)) :=
  sentinel_cancels_pending_and_stops exStubC3 [(1, 0), (2, 1)] rfl

/-- C4: along any sequence of operations on one stub starting from its
initial state, the msgids issued to its successive remote calls are strictly
increasing, and the pending-call table of every reachable state never holds
two entries with the same msgid. -/
theorem msgids_strictly_increasing_and_unique
    (is_priority : String → Bool) (ops : List StubOp) :
    (issuedMsgids is_priority initStub ops).Pairwise (· < ·) ∧
    ∀ m, (runOps is_priority initStub ops).map = some m →
      (keysD m).Nodup := by
  constructor
  · exact issuedMsgids_pairwise is_priority ops initStub
  · intro m hm
    exact ((runOps_inv is_priority ops initStub stubInv_init) m hm).1

/-- a task naming a method the hosted object does not have. -/
def exTaskMissing : Task := ⟨7, "nope", [], [], true⟩

/-- C5 counterexample: for the concrete hosted object `exObj` (methods
`echo` and `fail` only) and a task naming the absent method `nope`, the
dispatch loop does not deliver any TaskResult: the `getattr` raises before
the try block, crashing the loop. -/
theorem missing_method_no_taskresult_cex :
    exObj "nope" = none ∧
    (dispatchStep exObj [] exTaskMissing).1 = DispatchOutcome.crashed ∧
    ¬ ∃ r : TaskResult, (dispatchStep exObj [] exTaskMissing).1 =
        DispatchOutcome.sentResult r := by
  refine ⟨rfl, rfl, ?_⟩
  rintro ⟨r, hr⟩
  have h2 : (dispatchStep exObj [] exTaskMissing).1 =
      DispatchOutcome.crashed := rfl
  rw [h2] at hr
  exact DispatchOutcome.noConfusion hr

/-- C5 amended: for every task whose method name does not exist on the
hosted object, the dispatch loop crashes (the `AttributeError` from
`getattr` escapes the loop, before the urgent/queued branch) and no
TaskResult is produced for that task; the worker process death is the
failure signal. -/
theorem missing_method_crashes_loop (obj : ObjModel) (q : List Nat)
    (t : Task) (hmissing : obj t.func_name = none) :
    dispatchStep obj q t = (DispatchOutcome.crashed, q) ∧
    ¬ ∃ r : TaskResult,
        (dispatchStep obj q t).1 = DispatchOutcome.sentResult r := by
  have h1 : dispatchStep obj q t = (DispatchOutcome.crashed, q) := by
    simp [dispatchStep, hmissing]
  refine ⟨h1, ?_⟩
  rintro ⟨r, hr⟩
  rw [h1] at hr
  exact DispatchOutcome.noConfusion hr

/-- C5 witness: the amended theorem applied at `exObj` and `exTaskMissing`
with a non-empty queue. -/
theorem missing_method_crashes_loop_inst :
    dispatchStep exObj [3] exTaskMissing = (DispatchOutcome.crashed, [3]) ∧
    ¬ ∃ r : TaskResult, (dispatchStep exObj [3] exTaskMissing).1 =
        DispatchOutcome.sentResult r :=
  missing_method_crashes_loop exObj [3] exTaskMissing rfl

/-- C6: for every urgent task whose method resolves, the dispatch loop
executes it inline: a raised exception is captured and sent back as a failed
TaskResult for the task's msgid, a returned value is sent back as a
successful TaskResult; in either case the loop does not crash and the
bounded work queue is untouched. -/
theorem urgent_task_inline_execution (obj : ObjModel) (q : List Nat)
    (t : Task) (f : MethodImpl) (hf : obj t.func_name = some f)
    (hu : t.is_urgent = true) :
    (∀ v, f t.args t.kwargs = Except.ok v →
      dispatchStep obj q t =
        (DispatchOutcome.sentResult ⟨t.msgid, true, v⟩, q)) ∧
    (∀ e, f t.args t.kwargs = Except.error e →
      dispatchStep obj q t =
        (DispatchOutcome.sentResult ⟨t.msgid, false, e⟩, q)) ∧
    (dispatchStep obj q t).1 ≠ DispatchOutcome.crashed ∧
    (dispatchStep obj q t).2 = q := by
  refine ⟨?_, ?_, ?_, ?_⟩
  · intro v hv
    simp [dispatchStep, hf, hu, hv]
  · intro e he
    simp [dispatchStep, hf, hu, he]
  · cases hres : f t.args t.kwargs with
    | ok v => simp [dispatchStep, hf, hu, hres]
    | error e => simp [dispatchStep, hf, hu, hres]
  · cases hres : f t.args t.kwargs with
    | ok v => simp [dispatchStep, hf, hu, hres]
    | error e => simp [dispatchStep, hf, hu, hres]

/-- an urgent echo task. -/
def exTaskEcho : Task := ⟨2, "echo", [Value.intV 5], [], true⟩

/-- C6 witness: the theorem applied at `exObj` and the urgent `echo`
task. -/
theorem urgent_task_inline_execution_inst :
    (∀ v, exEcho exTaskEcho.args exTaskEcho.kwargs = Except.ok v →
      dispatchStep exObj [] exTaskEcho =
        (DispatchOutcome.sentResult ⟨exTaskEcho.msgid, true, v⟩, [])) ∧
    (∀ e, exEcho exTaskEcho.args exTaskEcho.kwargs = Except.error e →
      dispatchStep exObj [] exTaskEcho =
        (DispatchOutcome.sentResult ⟨exTaskEcho.msgid, false, e⟩, [])) ∧
    (dispatchStep exObj [] exTaskEcho).1 ≠ DispatchOutcome.crashed ∧
    (dispatchStep exObj [] exTaskEcho).2 = [] :=
  urgent_task_inline_execution exObj [] exTaskEcho exEcho rfl rfl

/-- C7: a pool constructed with a positive count K holds exactly K distinct
stubs, entering its scope yields that collection, and its exit trace
performs a shutdown of every stub and a join of every stub, with no join
occurring before any shutdown. -/
theorem pool_scope_contract (K : Int) (cpuCount : Nat) (hK : 0 < K) :
    ((localWorkerPool (some K) cpuCount).stubs.length : Int) = K ∧
    poolEnter (localWorkerPool (some K) cpuCount) =
      (localWorkerPool (some K) cpuCount).stubs ∧
    (localWorkerPool (some K) cpuCount).stubs.Nodup ∧
    (∀ st ∈ (localWorkerPool (some K) cpuCount).stubs,
      PoolEvent.shutdownEv st ∈
        poolExitTrace (localWorkerPool (some K) cpuCount) ∧
      PoolEvent.joinEv st ∈
        poolExitTrace (localWorkerPool (some K) cpuCount)) ∧
    (poolExitTrace (localWorkerPool (some K) cpuCount)).Pairwise
      (fun a b => ¬ (isJoinEv a = true ∧ isShutdownEv b = true)) := by
  have hKne : K ≠ 0 := ne_of_gt hK
  have hcount : poolStubCount (some K) cpuCount = K.toNat := by
    simp [poolStubCount, hKne]
  refine ⟨?_, rfl, ?_, ?_, ?_⟩
  · simp [localWorkerPool, hcount, Int.toNat_of_nonneg (le_of_lt hK)]
  · exact List.nodup_range _
  · intro st hst
    unfold poolExitTrace
    exact ⟨List.mem_append_left _ (List.mem_map_of_mem _ hst),
      List.mem_append_right _ (List.mem_map_of_mem _ hst)⟩
  · exact shutdowns_before_joins _

/-- C7 witness: the theorem applied at K = 3, cpu count 2. -/
theorem pool_scope_contract_inst :
    ((localWorkerPool (some 3) 2).stubs.length : Int) = 3 ∧
    poolEnter (localWorkerPool (some 3) 2) =
      (localWorkerPool (some 3) 2).stubs ∧
    (localWorkerPool (some 3) 2).stubs.Nodup ∧
    (∀ st ∈ (localWorkerPool (some 3) 2).stubs,
      PoolEvent.shutdownEv st ∈ poolExitTrace (localWorkerPool (some 3) 2) ∧
      PoolEvent.joinEv st ∈ poolExitTrace (localWorkerPool (some 3) 2)) ∧
    (poolExitTrace (localWorkerPool (some 3) 2)).Pairwise
      (fun a b => ¬ (isJoinEv a = true ∧ isShutdownEv b = true)) :=
  pool_scope_contract 3 2 (by decide)

/-- C8: one attribute access allocates exactly one fresh msgid and creates
exactly one (pending) future before the returned closure is ever invoked;
every invocation of that closure returns that same future, allocates no new
msgid or future, and every send it performs carries the msgid captured at
access time. -/
theorem getattr_single_allocation (s : StubState) :
    (stubGetattr s).1.msgid = s.msgid ∧
    (stubGetattr s).2.msgid = s.msgid + 1 ∧
    (stubGetattr s).1.futId = s.nextFut ∧
    (stubGetattr s).2.nextFut = s.nextFut + 1 ∧
    lookupD (stubGetattr s).2.futures (stubGetattr s).1.futId =
      some FutState.pending ∧
    (∀ (is_priority : String → Bool) (name : String) (args : List Value)
        (kwargs : List (String × Value)) (u : StubState),
      (remoteCall is_priority name (stubGetattr s).1 args kwargs u).2.1 =
        (stubGetattr s).1.futId ∧
      (remoteCall is_priority name (stubGetattr s).1 args kwargs
          u).2.2.msgid = u.msgid ∧
      (remoteCall is_priority name (stubGetattr s).1 args kwargs
          u).2.2.nextFut = u.nextFut ∧
      (∀ m, u.map = some m →
        (remoteCall is_priority name (stubGetattr s).1 args kwargs u).1 =
          SendEvent.sent ⟨(stubGetattr s).1.msgid, name, args, kwargs,
            is_priority name⟩)) := by
  refine ⟨rfl, rfl, rfl, rfl, lookupD_dictInsert_self _ _ _, ?_⟩
  intro is_priority name args kwargs u
  refine ⟨?_, ?_, ?_, ?_⟩
  · cases hm : u.map <;> simp [remoteCall, hm]
  · cases hm : u.map <;> simp [remoteCall, hm]
  · cases hm : u.map <;> simp [remoteCall, hm]
  · intro m hm
    simp [remoteCall, hm]

/-- C9: the stub's shutdown never raises (the bare `except: pass` swallows
any failure of the kill primitive), so the pool exit's shutdown loop always
performs a shutdown for every stub and completes, whatever the kill
outcomes, letting the join loop follow. -/
theorem shutdown_never_raises :
    (∀ k : Except String Unit, stubShutdown k = Except.ok ()) ∧
    (∀ kills : List (Except String Unit),
      runShutdownPhase kills = Except.ok kills.length) := by
  constructor
  · intro k
    cases k <;> rfl
  · intro kills
    have h := shutdownFold_ok kills 0
    rw [runShutdownPhase, h, Nat.zero_add]

/-- C10 counterexample: a pool constructed with count -1 holds zero stubs,
not "exactly that many": `not -1` is falsy so the cpu-count fallback is not
taken, and `range(-1)` is empty. -/
theorem pool_negative_count_cex :
    (localWorkerPool (some (-1)) 4).stubs.length = 0 ∧
    ¬ ((localWorkerPool (some (-1)) 4).stubs.length : Int) = (-1 : Int) := by
  constructor
  · rfl
  · decide

/-- C10 amended: a count of 0 (like an unspecified count) yields cpu-count
stubs, hence a non-empty pool when the host has at least one CPU; every
positive count yields exactly that many stubs; a negative count yields an
empty pool. -/
theorem pool_count_semantics (cpuCount : Nat) (c : Int)
    (hcpu : 0 < cpuCount) :
    (localWorkerPool (some 0) cpuCount).stubs.length = cpuCount ∧
    (localWorkerPool none cpuCount).stubs.length = cpuCount ∧
    (localWorkerPool (some 0) cpuCount).stubs.length ≠ 0 ∧
    (0 < c →
      ((localWorkerPool (some c) cpuCount).stubs.length : Int) = c) ∧
    (c < 0 → (localWorkerPool (some c) cpuCount).stubs.length = 0) := by
  refine ⟨?_, ?_, ?_, ?_, ?_⟩
  · simp [localWorkerPool, poolStubCount]
  · simp [localWorkerPool, poolStubCount]
  · simp [localWorkerPool, poolStubCount]
    omega
  · intro hc
    simp [localWorkerPool, poolStubCount, ne_of_gt hc]
    omega
  · intro hc
    simp [localWorkerPool, poolStubCount, ne_of_lt hc]
    omega

/-- C10 witness: the amended theorem applied at cpu count 4 and count 3. -/
theorem pool_count_semantics_inst :
    (localWorkerPool (some 0) 4).stubs.length = 4 ∧
    (localWorkerPool none 4).stubs.length = 4 ∧
    (localWorkerPool (some 0) 4).stubs.length ≠ 0 ∧
    ((0 : Int) < 3 →
      ((localWorkerPool (some 3) 4).stubs.length : Int) = 3) ∧
    ((3 : Int) < 0 → (localWorkerPool (some 3) 4).stubs.length = 0) :=
  pool_count_semantics 4 3 (by decide)

end LocalWorkerManager
